import Mathlib

/-!
Shallow embedding of the paste-handling state machine of the `APIKeyInput`
component (`internal/tui/components/dialogs/models/apikey.go`).

Modelling conventions:
* Strings are `List Char`; the text-input value and rune cursor become a
  `TextBuffer` (content plus cursor offset).
* Timestamps and durations are `Nat` milliseconds; `time.Since(t)` at time
  `now` is `now - t` (Go's negative durations also pass the `> 2s` gate
  as "fresh", which truncated subtraction reproduces).
* The external clipboard gateway (`clipboard.ReadAll` run in a goroutine,
  raced against `time.After(1 * time.Second)`) is modelled by a
  `ClipBehavior`: the instant at which the goroutine's send would arrive
  (`none` = never) and the result it would carry.  A panic inside the
  goroutine is recovered and converted into an error result by the
  deferred handler, so it is an `err` outcome here.
* The splice both paste paths perform is modelled at Go's byte level:
  `Value()` is the UTF-8 encoding of the rune buffer, the source
  byte-slices it at the rune-indexed `Position()`, `SetValue` re-decodes
  (invalid sequences become `U+FFFD`, Go semantics), and `SetCursor`
  adds the byte length of the pasted text, clamped to the rune count.
* The generic `textinput` widget update for ordinary keys is outside the
  core; it is a parameter `tiUpdate` acting on the buffer only — by
  construction it cannot reach the component's lifecycle fields, exactly
  as `a.input.Update(msg)` cannot reach `a.state` in the source.
-/

set_option linter.unusedVariables false

namespace Crush.APIKey

/-- The four-state validation lifecycle (`APIKeyInputState` in the source). -/
inductive APIKeyInputState
  | initial
  | verifying
  | verified
  | error
deriving DecidableEq, Repr

/-- Follow-up commands the component can return (`tea.Cmd`); the only one
the modelled paths produce is the spinner tick. -/
inductive Cmd
  | spinnerTick
deriving DecidableEq, Repr

/-- The text buffer backing the input: value and cursor offset
(`a.input.Value()` / `a.input.Position()`). -/
structure TextBuffer where
  content : List Char
  cursor : Nat
deriving DecidableEq, Repr

/-- The component state of `APIKeyInput` relevant to the paste core:
the buffer, whether the inner `textinput` is focused, the lifecycle
state, and the focus tracker (`focused`, `lastFocusTime`). -/
structure APIKeyInput where
  buffer : TextBuffer
  inputFocused : Bool
  state : APIKeyInputState
  focused : Bool
  lastFocusTime : Nat
deriving DecidableEq, Repr

/-- Go's `unicode.IsSpace` (the predicate behind `strings.TrimSpace`):
ASCII whitespace, the two Latin-1 cases, and the Unicode White_Space
code points. -/
def goIsSpace (c : Char) : Bool :=
  c = ' ' || c = '\t' || c = '\n' || c = '\x0b' || c = '\x0c' || c = '\r'
    || c = '\x85' || c = '\xa0'
    || c.toNat = 0x1680
    || (0x2000 ≤ c.toNat && c.toNat ≤ 0x200a)
    || c.toNat = 0x2028 || c.toNat = 0x2029
    || c.toNat = 0x202f || c.toNat = 0x205f || c.toNat = 0x3000

/-- `strings.ReplaceAll(s, "\n", "")`: removing every occurrence of the
one-character pattern `"\n"` deletes exactly the newline characters. -/
def removeNewlines (s : List Char) : List Char :=
  s.filter (fun c => c != '\n')

/-- `strings.TrimSpace`: drop leading and trailing whitespace runes. -/
def trimSpace (s : List Char) : List Char :=
  ((s.dropWhile goIsSpace).reverse.dropWhile goIsSpace).reverse

/-- The sanitisation applied to every paste payload in the source:
`strings.TrimSpace(strings.ReplaceAll(payload, "\n", ""))`. -/
def sanitize (s : List Char) : List Char :=
  trimSpace (removeNewlines s)

/-- The UTF-8 encoding of one rune, as a list of byte values (Go
`utf8.EncodeRune`; division/remainder stand in for the bit operations,
which agree on the encoded ranges). -/
def utf8EncodeChar (c : Char) : List Nat :=
  let n := c.toNat
  if n < 0x80 then [n]
  else if n < 0x800 then [0xC0 + n / 64, 0x80 + n % 64]
  else if n < 0x10000 then [0xE0 + n / 4096, 0x80 + n / 64 % 64, 0x80 + n % 64]
  else [0xF0 + n / 262144, 0x80 + n / 4096 % 64, 0x80 + n / 64 % 64, 0x80 + n % 64]

/-- The UTF-8 byte string of a rune sequence: what Go's `string(value)`
— and hence `a.input.Value()` — holds. -/
def utf8Encode (s : List Char) : List Nat :=
  (s.map utf8EncodeChar).flatten

/-- A UTF-8 continuation byte. -/
abbrev isCont (b : Nat) : Prop := 0x80 ≤ b ∧ b ≤ 0xBF

/-- Go `utf8.DecodeRune` on the first byte `b0` and the following bytes:
the decoded rune and how many bytes beyond `b0` it consumed.  The
acceptance table is Go's: no overlong forms (leading bytes `0xC0`/`0xC1`
rejected, `0xE0` needs a second byte in `[0xA0, 0xBF]`, `0xF0` in
`[0x90, 0xBF]`), no surrogates (`0xED` caps the second byte at `0x9F`),
nothing above `U+10FFFF` (`0xF4` caps it at `0x8F`).  Anything invalid
yields `U+FFFD` and consumes the single byte `b0`. -/
def utf8DecodeFirst (b0 : Nat) (rest : List Nat) : Char × Nat :=
  if b0 < 0x80 then (Char.ofNat b0, 0)
  else if 0xC2 ≤ b0 ∧ b0 ≤ 0xDF then
    match rest with
    | b1 :: _ =>
      if isCont b1 then (Char.ofNat ((b0 - 0xC0) * 64 + (b1 - 0x80)), 1)
      else (Char.ofNat 0xFFFD, 0)
    | [] => (Char.ofNat 0xFFFD, 0)
  else if 0xE0 ≤ b0 ∧ b0 ≤ 0xEF then
    match rest with
    | b1 :: b2 :: _ =>
      if ((b0 = 0xE0 ∧ 0xA0 ≤ b1 ∧ b1 ≤ 0xBF)
            ∨ (0xE1 ≤ b0 ∧ b0 ≤ 0xEC ∧ isCont b1)
            ∨ (b0 = 0xED ∧ 0x80 ≤ b1 ∧ b1 ≤ 0x9F)
            ∨ (0xEE ≤ b0 ∧ isCont b1)) ∧ isCont b2 then
        (Char.ofNat ((b0 - 0xE0) * 4096 + (b1 - 0x80) * 64 + (b2 - 0x80)), 2)
      else (Char.ofNat 0xFFFD, 0)
    | _ => (Char.ofNat 0xFFFD, 0)
  else if 0xF0 ≤ b0 ∧ b0 ≤ 0xF4 then
    match rest with
    | b1 :: b2 :: b3 :: _ =>
      if ((b0 = 0xF0 ∧ 0x90 ≤ b1 ∧ b1 ≤ 0xBF)
            ∨ (0xF1 ≤ b0 ∧ b0 ≤ 0xF3 ∧ isCont b1)
            ∨ (b0 = 0xF4 ∧ 0x80 ≤ b1 ∧ b1 ≤ 0x8F)) ∧ isCont b2 ∧ isCont b3 then
        (Char.ofNat ((b0 - 0xF0) * 262144 + (b1 - 0x80) * 4096 + (b2 - 0x80) * 64 + (b3 - 0x80)), 3)
      else (Char.ofNat 0xFFFD, 0)
    | _ => (Char.ofNat 0xFFFD, 0)
  else (Char.ofNat 0xFFFD, 0)

/-- Decode a UTF-8 byte string into runes rune by rune, Go's
`[]rune(string)` conversion: invalid sequences become `U+FFFD` one byte
at a time.  The fuel argument (instantiated with the byte count, an
upper bound since every step consumes at least one byte) keeps the
recursion structural. -/
def utf8DecodeAux : Nat → List Nat → List Char
  | 0, _ => []
  | _, [] => []
  | fuel + 1, b0 :: rest =>
    let r := utf8DecodeFirst b0 rest
    r.1 :: utf8DecodeAux fuel (rest.drop r.2)

def utf8Decode (l : List Nat) : List Char :=
  utf8DecodeAux l.length l

/-- The splice used by both paste paths, exactly as the source computes
it: `currentValue[:cursorPos]` and `currentValue[cursorPos:]` byte-slice
the UTF-8 string returned by `Value()` at the rune-indexed `Position()`,
the concatenation with the pasted text is re-decoded by `SetValue`
(Go turns invalid sequences into `U+FFFD`), and
`SetCursor(cursorPos + len(clipboardContent))` advances the rune cursor
by the Go byte length of the pasted text, clamped by `SetCursor` to the
new value's rune count.  On all-ASCII content and text this coincides
with the character-level splice; on multibyte input it does not. -/
def insertAt (b : TextBuffer) (text : List Char) : TextBuffer :=
  let bytes := utf8Encode b.content
  let textBytes := utf8Encode text
  let newContent := utf8Decode (bytes.take b.cursor ++ textBytes ++ bytes.drop b.cursor)
  { content := newContent
    cursor := min (b.cursor + textBytes.length) newContent.length }

/-- `updateStatePresentation`: the per-state presentation refresh.  Title
and styling are outside the core; the effects on focus state are:
Initial re-focuses the inner input when `focused` is set, Verifying and
Verified blur it, and Error focuses it and refreshes the focus tracker
(`a.focused = true`, `a.lastFocusTime = time.Now()`). -/
def updateStatePresentation (a : APIKeyInput) (now : Nat) : APIKeyInput :=
  match a.state with
  | .initial => if a.focused then { a with inputFocused := true } else a
  | .verifying => { a with inputFocused := false }
  | .verified => { a with inputFocused := false }
  | .error => { a with inputFocused := true, focused := true, lastFocusTime := now }

/-- `handlePasteMsg`: the host-delivered (`tea.PasteMsg`) paste path.  In
the editable states it first refocuses the inner input; it then
sanitises the payload and, when the result is non-empty, splices it at
the cursor.  Note that in the source the splice itself is not guarded by
the lifecycle state. -/
def handlePasteMsg (a : APIKeyInput) (msg : List Char) : APIKeyInput × Option Cmd :=
  let a := if a.state = .initial ∨ a.state = .error then { a with inputFocused := true } else a
  let pasteContent := sanitize msg
  if pasteContent = [] then
    (a, none)
  else
    ({ a with buffer := insertAt a.buffer pasteContent }, none)

/-- Behaviour of one clipboard read attempt: when (if ever) the goroutine's
result arrives on the channel, and what it carries.  A goroutine panic is
recovered into an error result by the deferred handler in the source. -/
inductive ClipResult
  | ok (text : List Char)
  | err
deriving DecidableEq, Repr

structure ClipBehavior where
  completesAt : Option Nat
  result : ClipResult
deriving DecidableEq, Repr

/-- Focus-freshness threshold: `2 * time.Second`, in milliseconds. -/
def focusFreshMs : Nat := 2000

/-- Clipboard-read deadline: `time.After(1 * time.Second)`, in milliseconds. -/
def clipDeadlineMs : Nat := 1000

/-- Result of one run of the shortcut-paste coordinator: the updated
component, the returned command, how many clipboard reads were issued,
and after how many milliseconds control returned to the caller. -/
structure PasteOutcome where
  model : APIKeyInput
  cmd : Option Cmd
  clipCalls : Nat
  returnsBy : Nat
deriving DecidableEq, Repr

/-- `handleSafePaste`: the shortcut-triggered paste path.
1. Non-editable lifecycle state: no-op.
2. Stale focus (`!a.focused || time.Since(a.lastFocusTime) > 2s`):
   reassert focus and return without any clipboard access.
3. Otherwise refresh focus, launch the clipboard goroutine, and race its
   single-use channel against the 1-second deadline: error → no-op;
   text → sanitise and, if non-empty, splice; deadline first → abandon,
   the late result is never read from the buffered channel. -/
def handleSafePaste (a : APIKeyInput) (now : Nat) (clip : ClipBehavior) : PasteOutcome :=
  if ¬(a.state = .initial ∨ a.state = .error) then
    ⟨a, none, 0, 0⟩
  else
    let timeSinceFocus := now - a.lastFocusTime
    if ¬a.focused ∨ timeSinceFocus > focusFreshMs then
      let a := { a with inputFocused := true, focused := true, lastFocusTime := now }
      ⟨updateStatePresentation a now, none, 0, 0⟩
    else
      let a := { a with inputFocused := true, focused := true, lastFocusTime := now }
      match clip.completesAt with
      | none => ⟨a, none, 1, clipDeadlineMs⟩
      | some t =>
        if t ≤ clipDeadlineMs then
          match clip.result with
          | .err => ⟨a, none, 1, t⟩
          | .ok text =>
            let clipboardContent := sanitize text
            if clipboardContent = [] then
              ⟨a, none, 1, t⟩
            else
              ⟨{ a with buffer := insertAt a.buffer clipboardContent }, none, 1, t⟩
        else
          ⟨a, none, 1, clipDeadlineMs⟩

/-- Keys distinguished by `Update`: the three paste shortcuts and
everything else (which is passed through to the text input). -/
inductive Key
  | ctrlV
  | ctrlShiftV
  | shiftInsert
  | other
deriving DecidableEq, Repr

/-- The inbound event vocabulary routed by `Update`. -/
inductive Msg
  | focusGained
  | focusLost
  | keyPress (k : Key)
  | spinnerTick
  | stateChange (s : APIKeyInputState)
  | paste (content : List Char)

/-- `updateTextInput`: forward a message to the inner `textinput`, which
may rewrite the buffer and emit a command but touches nothing else. -/
def updateTextInput (a : APIKeyInput)
    (tiUpdate : TextBuffer → TextBuffer × Option Cmd) : APIKeyInput × Option Cmd :=
  let r := tiUpdate a.buffer
  ({ a with buffer := r.1 }, r.2)

/-- Result of `Update`: new component, command, clipboard reads issued. -/
structure UpdateOutcome where
  model : APIKeyInput
  cmd : Option Cmd
  clipCalls : Nat

/-- `Update`: the event dispatcher.  Focus events maintain the focus
tracker (blur does not blur the inner input); every key press refreshes
the tracker and the paste shortcuts branch into `handleSafePaste`;
spinner ticks refresh presentation while verifying; an explicit
state-change message is the only writer of `state`; `tea.PasteMsg`
goes to `handlePasteMsg`. -/
def update (a : APIKeyInput) (now : Nat) (clip : ClipBehavior)
    (tiUpdate : TextBuffer → TextBuffer × Option Cmd) (msg : Msg) : UpdateOutcome :=
  match msg with
  | .focusGained =>
    ⟨{ a with focused := true, lastFocusTime := now, inputFocused := true }, none, 0⟩
  | .focusLost =>
    ⟨{ a with focused := false }, none, 0⟩
  | .keyPress k =>
    let a := { a with focused := true, lastFocusTime := now }
    match k with
    | .ctrlV | .ctrlShiftV | .shiftInsert =>
      let r := handleSafePaste a now clip
      ⟨r.model, r.cmd, r.clipCalls⟩
    | .other =>
      let r := updateTextInput a tiUpdate
      ⟨r.1, r.2, 0⟩
  | .spinnerTick =>
    if a.state = .verifying then
      ⟨updateStatePresentation a now, some .spinnerTick, 0⟩
    else
      ⟨a, none, 0⟩
  | .stateChange s =>
    let a := { a with state := s }
    let cmd := if s = .verifying then some Cmd.spinnerTick else none
    ⟨updateStatePresentation a now, cmd, 0⟩
  | .paste content =>
    let r := handlePasteMsg a content
    ⟨r.1, r.2, 0⟩

/-- `Reset`: back to the initial lifecycle state with an empty, focused
input and a refreshed focus tracker (`SetValue("")` leaves the cursor at
offset 0), then a presentation refresh. -/
def reset (a : APIKeyInput) (now : Nat) : APIKeyInput :=
  let a := { a with
    state := APIKeyInputState.initial
    buffer := { content := [], cursor := 0 }
    inputFocused := true
    focused := true
    lastFocusTime := now }
  updateStatePresentation a now

/-- Concrete component states and clipboard behaviours used as witnesses. -/
def verifyingExample : APIKeyInput :=
  { buffer := { content := [], cursor := 0 }, inputFocused := false
    state := .verifying, focused := false, lastFocusTime := 0 }

def freshExample : APIKeyInput :=
  { buffer := { content := "old".toList, cursor := 3 }, inputFocused := true
    state := .initial, focused := true, lastFocusTime := 1000 }

def staleExample : APIKeyInput :=
  { buffer := { content := ['k'], cursor := 1 }, inputFocused := true
    state := .initial, focused := true, lastFocusTime := 0 }

def clipNeverInstance : ClipBehavior := { completesAt := none, result := .ok "zzz".toList }

def clipErrInstance : ClipBehavior := { completesAt := some 10, result := .err }

def clipOkInstance : ClipBehavior := { completesAt := some 100, result := .ok "sk-test123\n".toList }

theorem updateStatePresentation_buffer (a : APIKeyInput) (now : Nat) :
    (updateStatePresentation a now).buffer = a.buffer := by
  unfold updateStatePresentation
  split <;> first | rfl | (split <;> rfl)

theorem updateStatePresentation_state (a : APIKeyInput) (now : Nat) :
    (updateStatePresentation a now).state = a.state := by
  unfold updateStatePresentation
  split <;> rename_i h <;> first | (split <;> simp [h]) | simp [h]

theorem updateStatePresentation_focused (a : APIKeyInput) (now : Nat)
    (h : a.focused = true) :
    (updateStatePresentation a now).focused = true := by
  unfold updateStatePresentation
  split <;> first | (split <;> simp [h]) | simp [h]

theorem updateStatePresentation_lastFocusTime (a : APIKeyInput) (now : Nat)
    (h : a.lastFocusTime = now) :
    (updateStatePresentation a now).lastFocusTime = now := by
  unfold updateStatePresentation
  split <;> first | (split <;> simp [h]) | simp [h]

theorem handleSafePaste_not_editable
    (a : APIKeyInput) (now : Nat) (clip : ClipBehavior)
    (h : ¬(a.state = .initial ∨ a.state = .error)) :
    handleSafePaste a now clip = ⟨a, none, 0, 0⟩ := by
  unfold handleSafePaste
  rw [if_pos h]

theorem handleSafePaste_stale
    (a : APIKeyInput) (now : Nat) (clip : ClipBehavior)
    (hstate : a.state = .initial ∨ a.state = .error)
    (hgate : ¬a.focused ∨ now - a.lastFocusTime > focusFreshMs) :
    handleSafePaste a now clip =
      ⟨updateStatePresentation
        { a with inputFocused := true, focused := true, lastFocusTime := now } now,
       none, 0, 0⟩ := by
  unfold handleSafePaste
  rw [if_neg (not_not_intro hstate), if_pos hgate]

theorem gate_not_stale (a : APIKeyInput) (now : Nat)
    (hfoc : a.focused = true) (hfresh : now - a.lastFocusTime ≤ focusFreshMs) :
    ¬(¬a.focused = true ∨ now - a.lastFocusTime > focusFreshMs) := by
  rw [hfoc]
  simp only [not_true, false_or, gt_iff_lt, not_lt]
  exact hfresh

theorem handleSafePaste_deadline
    (a : APIKeyInput) (now : Nat) (clip : ClipBehavior)
    (hstate : a.state = .initial ∨ a.state = .error)
    (hfoc : a.focused = true) (hfresh : now - a.lastFocusTime ≤ focusFreshMs)
    (hlate : ∀ t, clip.completesAt = some t → clipDeadlineMs < t) :
    handleSafePaste a now clip =
      ⟨{ a with inputFocused := true, focused := true, lastFocusTime := now },
       none, 1, clipDeadlineMs⟩ := by
  unfold handleSafePaste
  rw [if_neg (not_not_intro hstate), if_neg (gate_not_stale a now hfoc hfresh)]
  cases hc : clip.completesAt with
  | none => rfl
  | some t =>
    simp only
    rw [if_neg (Nat.not_le.mpr (hlate t hc))]

theorem handleSafePaste_err
    (a : APIKeyInput) (now : Nat) (clip : ClipBehavior) (t : Nat)
    (hstate : a.state = .initial ∨ a.state = .error)
    (hfoc : a.focused = true) (hfresh : now - a.lastFocusTime ≤ focusFreshMs)
    (hc : clip.completesAt = some t) (ht : t ≤ clipDeadlineMs)
    (herr : clip.result = .err) :
    handleSafePaste a now clip =
      ⟨{ a with inputFocused := true, focused := true, lastFocusTime := now },
       none, 1, t⟩ := by
  unfold handleSafePaste
  rw [if_neg (not_not_intro hstate), if_neg (gate_not_stale a now hfoc hfresh)]
  rw [hc]
  simp only
  rw [if_pos ht, herr]

theorem handleSafePaste_ok
    (a : APIKeyInput) (now : Nat) (clip : ClipBehavior) (t : Nat) (text : List Char)
    (hstate : a.state = .initial ∨ a.state = .error)
    (hfoc : a.focused = true) (hfresh : now - a.lastFocusTime ≤ focusFreshMs)
    (hc : clip.completesAt = some t) (ht : t ≤ clipDeadlineMs)
    (hok : clip.result = .ok text) :
    handleSafePaste a now clip =
      (if sanitize text = [] then
        ⟨{ a with inputFocused := true, focused := true, lastFocusTime := now }, none, 1, t⟩
      else
        ⟨{ a with inputFocused := true, focused := true, lastFocusTime := now, buffer := insertAt a.buffer (sanitize text) }, none, 1, t⟩) := by
  unfold handleSafePaste
  rw [if_neg (not_not_intro hstate), if_neg (gate_not_stale a now hfoc hfresh)]
  rw [hc]
  simp only
  rw [if_pos ht, hok]

theorem sanitize_eq_nil_of_all_space (l : List Char) (h : ∀ c ∈ l, goIsSpace c) :
    sanitize l = [] := by
  have h2 : ∀ c ∈ removeNewlines l, goIsSpace c := by
    intro c hc
    exact h c (List.mem_of_mem_filter hc)
  have h3 : (removeNewlines l).dropWhile goIsSpace = [] :=
    List.dropWhile_eq_nil_iff.mpr h2
  simp [sanitize, trimSpace, h3]

theorem handlePasteMsg_state (a : APIKeyInput) (msg : List Char) :
    (handlePasteMsg a msg).1.state = a.state := by
  unfold handlePasteMsg
  dsimp only
  split <;> split <;> rfl

theorem handlePasteMsg_noop_of_nil (a : APIKeyInput) (msg : List Char)
    (h : sanitize msg = []) :
    (handlePasteMsg a msg).1.buffer = a.buffer ∧ (handlePasteMsg a msg).2 = none := by
  unfold handlePasteMsg
  dsimp only
  rw [h, if_pos rfl]
  constructor
  · split <;> rfl
  · rfl

theorem handleSafePaste_state (a : APIKeyInput) (now : Nat) (clip : ClipBehavior) :
    (handleSafePaste a now clip).model.state = a.state := by
  by_cases hstate : a.state = .initial ∨ a.state = .error
  · by_cases hfoc : a.focused = true
    · by_cases hfresh : now - a.lastFocusTime ≤ focusFreshMs
      · cases hc : clip.completesAt with
        | none =>
          rw [handleSafePaste_deadline a now clip hstate hfoc hfresh
            (fun t h => by simp [hc] at h)]
        | some t =>
          by_cases ht : t ≤ clipDeadlineMs
          · cases hr : clip.result with
            | err => rw [handleSafePaste_err a now clip t hstate hfoc hfresh hc ht hr]
            | ok text =>
              rw [handleSafePaste_ok a now clip t text hstate hfoc hfresh hc ht hr]
              split <;> rfl
          · rw [handleSafePaste_deadline a now clip hstate hfoc hfresh
              (fun t' h' => by rw [hc] at h'; injection h' with h2; rw [← h2]; exact Nat.lt_of_not_le ht)]
      · rw [handleSafePaste_stale a now clip hstate (Or.inr (Nat.not_le.mp hfresh))]
        exact updateStatePresentation_state _ _
    · rw [handleSafePaste_stale a now clip hstate (Or.inl hfoc)]
      exact updateStatePresentation_state _ _
  · rw [handleSafePaste_not_editable a now clip hstate]

theorem handleSafePaste_calls_one (a : APIKeyInput) (now : Nat) (clip : ClipBehavior)
    (hstate : a.state = .initial ∨ a.state = .error)
    (hfoc : a.focused = true) (hfresh : now - a.lastFocusTime ≤ focusFreshMs) :
    (handleSafePaste a now clip).clipCalls = 1 := by
  cases hc : clip.completesAt with
  | none =>
    rw [handleSafePaste_deadline a now clip hstate hfoc hfresh (fun t h => by simp [hc] at h)]
  | some t =>
    by_cases ht : t ≤ clipDeadlineMs
    · cases hr : clip.result with
      | err => rw [handleSafePaste_err a now clip t hstate hfoc hfresh hc ht hr]
      | ok text =>
        rw [handleSafePaste_ok a now clip t text hstate hfoc hfresh hc ht hr]
        split <;> rfl
    · rw [handleSafePaste_deadline a now clip hstate hfoc hfresh
        (fun t' h' => by rw [hc] at h'; injection h' with h2; rw [← h2]; exact Nat.lt_of_not_le ht)]

/-- Claim C1: in the non-editable states {Verifying, Verified} the host-delivered
paste path still splices the payload into the buffer: processing
`tea.PasteMsg "sk-test123456789"` in state Verifying changes the buffer,
refuting the gating claim for host-delivered pastes. -/
theorem pasteMsg_mutates_buffer_in_verifying :
    verifyingExample.state = APIKeyInputState.verifying ∧
    (update verifyingExample 0 clipNeverInstance (fun b => (b, none))
        (.paste "sk-test123456789".toList)).model.buffer.content
      = "sk-test123456789".toList ∧
    (update verifyingExample 0 clipNeverInstance (fun b => (b, none))
        (.paste "sk-test123456789".toList)).model.buffer ≠ verifyingExample.buffer := by
  refine ⟨rfl, by decide, by decide⟩

/-- Claim C2: the sanitize operation first strips every newline character and then
trims leading and trailing whitespace, with the two specified evaluations. -/
theorem sanitize_strips_newlines_then_trims :
    (∀ s : List Char, sanitize s = trimSpace (s.filter (fun c => c != '\n'))) ∧
    sanitize "sk-abc\n123 ".toList = "sk-abc123".toList ∧
    sanitize "   \n  ".toList = [] :=
  ⟨fun s => rfl, by decide, by decide⟩

/-- Claim C3: a shortcut-triggered paste in an editable state whose focus-freshness
check fails issues zero clipboard calls, leaves the buffer unchanged, and
reasserts focus (focused=true, timestamp refreshed) before returning. -/
theorem safePaste_stale_focus_blocks_clipboard
    (a : APIKeyInput) (now : Nat) (clip : ClipBehavior)
    (hstate : a.state = .initial ∨ a.state = .error)
    (hstale : ¬a.focused ∨ now - a.lastFocusTime > focusFreshMs) :
    (handleSafePaste a now clip).clipCalls = 0 ∧
    (handleSafePaste a now clip).model.buffer = a.buffer ∧
    (handleSafePaste a now clip).model.focused = true ∧
    (handleSafePaste a now clip).model.lastFocusTime = now := by
  rw [handleSafePaste_stale a now clip hstate hstale]
  refine ⟨rfl, ?_, ?_, ?_⟩
  · exact updateStatePresentation_buffer _ _
  · exact updateStatePresentation_focused _ _ rfl
  · exact updateStatePresentation_lastFocusTime _ _ rfl

theorem safePaste_stale_focus_blocks_clipboard_witness :
    (staleExample.state = .initial ∨ staleExample.state = .error) ∧
    (¬staleExample.focused ∨ 5000 - staleExample.lastFocusTime > focusFreshMs) ∧
    (handleSafePaste staleExample 5000 clipOkInstance).clipCalls = 0 ∧
    (handleSafePaste staleExample 5000 clipOkInstance).model.buffer = staleExample.buffer ∧
    (handleSafePaste staleExample 5000 clipOkInstance).model.focused = true ∧
    (handleSafePaste staleExample 5000 clipOkInstance).model.lastFocusTime = 5000 :=
  ⟨Or.inl rfl, by decide,
   safePaste_stale_focus_blocks_clipboard staleExample 5000 clipOkInstance (Or.inl rfl) (by decide)⟩

/-- Claim C4: when the clipboard read does not complete within the 1-second
deadline, control returns within the deadline with the buffer unchanged,
and the outcome does not depend on the result the task would eventually
deliver — the late result is discarded, never spliced. -/
theorem safePaste_timeout_noop_and_discard
    (a : APIKeyInput) (now : Nat) (clip : ClipBehavior)
    (hlate : ∀ t, clip.completesAt = some t → clipDeadlineMs < t) :
    (handleSafePaste a now clip).returnsBy ≤ clipDeadlineMs ∧
    (handleSafePaste a now clip).model.buffer = a.buffer ∧
    ∀ r, handleSafePaste a now { clip with result := r } = handleSafePaste a now clip := by
  by_cases hstate : a.state = .initial ∨ a.state = .error
  · by_cases hfoc : a.focused = true
    · by_cases hfresh : now - a.lastFocusTime ≤ focusFreshMs
      · rw [handleSafePaste_deadline a now clip hstate hfoc hfresh hlate]
        refine ⟨by simp [clipDeadlineMs], rfl, fun r => ?_⟩
        rw [handleSafePaste_deadline a now { clip with result := r } hstate hfoc hfresh hlate]
      · rw [handleSafePaste_stale a now clip hstate (Or.inr (Nat.not_le.mp hfresh))]
        refine ⟨by simp [clipDeadlineMs], updateStatePresentation_buffer _ _, fun r => ?_⟩
        rw [handleSafePaste_stale a now { clip with result := r } hstate
          (Or.inr (Nat.not_le.mp hfresh))]
    · rw [handleSafePaste_stale a now clip hstate (Or.inl hfoc)]
      refine ⟨by simp [clipDeadlineMs], updateStatePresentation_buffer _ _, fun r => ?_⟩
      rw [handleSafePaste_stale a now { clip with result := r } hstate (Or.inl hfoc)]
  · rw [handleSafePaste_not_editable a now clip hstate]
    refine ⟨by simp [clipDeadlineMs], rfl, fun r => ?_⟩
    rw [handleSafePaste_not_editable a now { clip with result := r } hstate]

theorem safePaste_timeout_noop_and_discard_witness :
    (∀ t, clipNeverInstance.completesAt = some t → clipDeadlineMs < t) ∧
    (handleSafePaste freshExample 1500 clipNeverInstance).returnsBy ≤ clipDeadlineMs ∧
    (handleSafePaste freshExample 1500 clipNeverInstance).model.buffer = freshExample.buffer ∧
    ∀ r, handleSafePaste freshExample 1500 { clipNeverInstance with result := r }
      = handleSafePaste freshExample 1500 clipNeverInstance :=
  ⟨fun t h => Option.noConfusion h,
   safePaste_timeout_noop_and_discard freshExample 1500 clipNeverInstance
     (fun t h => Option.noConfusion h)⟩

/-- Claim C5: a clipboard read that completes with an error (including a
recovered gateway panic) is a logged no-op: the buffer is unchanged and
no command — in particular no fatal error — is returned. -/
theorem safePaste_gateway_error_noop
    (a : APIKeyInput) (now : Nat) (clip : ClipBehavior)
    (herr : clip.result = .err) :
    (handleSafePaste a now clip).model.buffer = a.buffer ∧
    (handleSafePaste a now clip).cmd = none := by
  by_cases hstate : a.state = .initial ∨ a.state = .error
  · by_cases hfoc : a.focused = true
    · by_cases hfresh : now - a.lastFocusTime ≤ focusFreshMs
      · cases hc : clip.completesAt with
        | none =>
          rw [handleSafePaste_deadline a now clip hstate hfoc hfresh
            (fun t h => by simp [hc] at h)]
          exact ⟨rfl, rfl⟩
        | some t =>
          by_cases ht : t ≤ clipDeadlineMs
          · rw [handleSafePaste_err a now clip t hstate hfoc hfresh hc ht herr]
            exact ⟨rfl, rfl⟩
          · rw [handleSafePaste_deadline a now clip hstate hfoc hfresh
              (fun t' h' => by rw [hc] at h'; injection h' with h2; rw [← h2]; exact Nat.lt_of_not_le ht)]
            exact ⟨rfl, rfl⟩
      · rw [handleSafePaste_stale a now clip hstate (Or.inr (Nat.not_le.mp hfresh))]
        exact ⟨updateStatePresentation_buffer _ _, rfl⟩
    · rw [handleSafePaste_stale a now clip hstate (Or.inl hfoc)]
      exact ⟨updateStatePresentation_buffer _ _, rfl⟩
  · rw [handleSafePaste_not_editable a now clip hstate]
    exact ⟨rfl, rfl⟩

theorem safePaste_gateway_error_noop_witness :
    clipErrInstance.result = .err ∧
    (handleSafePaste freshExample 1500 clipErrInstance).model.buffer = freshExample.buffer ∧
    (handleSafePaste freshExample 1500 clipErrInstance).cmd = none :=
  ⟨rfl, safePaste_gateway_error_noop freshExample 1500 clipErrInstance rfl⟩

/-- Claim C6: the splice contract — insert at the character offset, new
cursor = offset + length(text) — fails on the code for multibyte input,
because the source byte-slices `Value()` at the rune-indexed `Position()`
and advances the cursor by the Go byte length of the pasted text.  With
content `"ab"`, cursor 1 and paste text `"é"` (one character, two bytes)
the content is spliced correctly but the cursor lands at 3, not
1 + length("é") = 2; with content `"héllo"` and cursor 2 the byte slice
splits the encoding of `é`, so pasting `"X"` turns the two halves of
that encoding into replacement characters: the result is
`"h�X�llo"`, not the contract's `"héXllo"`.  On all-ASCII
input, such as the specified `"foo"`/3/`"bar"` example, the splice meets
the contract exactly. -/
theorem insertAt_byte_cursor_diverges :
    (insertAt ⟨"ab".toList, 1⟩ "é".toList).content = "aéb".toList ∧
    (insertAt ⟨"ab".toList, 1⟩ "é".toList).cursor = 3 ∧
    1 + ("é".toList).length = 2 ∧
    (insertAt ⟨"héllo".toList, 2⟩ "X".toList).content = "h\uFFFDX\uFFFDllo".toList ∧
    (insertAt ⟨"héllo".toList, 2⟩ "X".toList).content
      ≠ "héllo".toList.take 2 ++ "X".toList ++ "héllo".toList.drop 2 ∧
    insertAt ⟨"foo".toList, 3⟩ "bar".toList = ⟨"foobar".toList, 6⟩ := by
  refine ⟨by decide, by decide, rfl, by decide, by decide, by decide⟩

/-- Claim C7: a paste whose payload is empty or whitespace-only sanitises to the
empty string, so neither the host-delivered path nor the
shortcut-triggered path (whatever the read latency) mutates the buffer,
and neither returns a follow-up command. -/
theorem whitespace_paste_noop
    (a : APIKeyInput) (payload : List Char) (now t : Nat)
    (hws : ∀ c ∈ payload, goIsSpace c) :
    (handlePasteMsg a payload).1.buffer = a.buffer ∧
    (handlePasteMsg a payload).2 = none ∧
    (handleSafePaste a now ⟨some t, .ok payload⟩).model.buffer = a.buffer ∧
    (handleSafePaste a now ⟨some t, .ok payload⟩).cmd = none := by
  have hnil : sanitize payload = [] := sanitize_eq_nil_of_all_space payload hws
  obtain ⟨hb, hc⟩ := handlePasteMsg_noop_of_nil a payload hnil
  refine ⟨hb, hc, ?_⟩
  by_cases hstate : a.state = .initial ∨ a.state = .error
  · by_cases hfoc : a.focused = true
    · by_cases hfresh : now - a.lastFocusTime ≤ focusFreshMs
      · by_cases ht : t ≤ clipDeadlineMs
        · rw [handleSafePaste_ok a now ⟨some t, .ok payload⟩ t payload hstate hfoc hfresh rfl ht rfl]
          rw [if_pos hnil]
          exact ⟨rfl, rfl⟩
        · rw [handleSafePaste_deadline a now ⟨some t, .ok payload⟩ hstate hfoc hfresh
            (fun t' h' => by injection h' with h2; rw [← h2]; exact Nat.lt_of_not_le ht)]
          exact ⟨rfl, rfl⟩
      · rw [handleSafePaste_stale a now ⟨some t, .ok payload⟩ hstate (Or.inr (Nat.not_le.mp hfresh))]
        exact ⟨updateStatePresentation_buffer _ _, rfl⟩
    · rw [handleSafePaste_stale a now ⟨some t, .ok payload⟩ hstate (Or.inl hfoc)]
      exact ⟨updateStatePresentation_buffer _ _, rfl⟩
  · rw [handleSafePaste_not_editable a now ⟨some t, .ok payload⟩ hstate]
    exact ⟨rfl, rfl⟩

theorem whitespace_paste_noop_witness :
    (∀ c ∈ "   \n  ".toList, goIsSpace c) ∧
    (handlePasteMsg freshExample "   \n  ".toList).1.buffer = freshExample.buffer ∧
    (handlePasteMsg freshExample "   \n  ".toList).2 = none ∧
    (handleSafePaste freshExample 1500 ⟨some 100, .ok "   \n  ".toList⟩).model.buffer
      = freshExample.buffer ∧
    (handleSafePaste freshExample 1500 ⟨some 100, .ok "   \n  ".toList⟩).cmd = none :=
  ⟨by decide, whitespace_paste_noop freshExample "   \n  ".toList 1500 100 (by decide)⟩

/-- Claim C8: reset is idempotent on the observable state: applying it twice
produces exactly the state of applying it once — empty content, Initial
lifecycle state, focused input. -/
theorem reset_idempotent (a : APIKeyInput) (t1 t2 : Nat) :
    reset (reset a t1) t2 = reset a t2 ∧
    (reset (reset a t1) t2).buffer.content = [] ∧
    (reset (reset a t1) t2).state = .initial ∧
    (reset (reset a t1) t2).focused = true :=
  ⟨rfl, rfl, rfl, rfl⟩

/-- Claim C9: neither paste handling (host-delivered or shortcut-triggered key
press) nor any key press mutates the lifecycle state, whatever the text
input does with the key; only an explicit state-change event writes it. -/
theorem paste_and_keys_preserve_state
    (a : APIKeyInput) (now : Nat) (clip : ClipBehavior)
    (tiU : TextBuffer → TextBuffer × Option Cmd) :
    (∀ content, (update a now clip tiU (.paste content)).model.state = a.state) ∧
    (∀ k, (update a now clip tiU (.keyPress k)).model.state = a.state) ∧
    (∀ s, (update a now clip tiU (.stateChange s)).model.state = s) := by
  refine ⟨?_, ?_, ?_⟩
  · intro content
    exact handlePasteMsg_state a content
  · intro k
    cases k with
    | ctrlV => exact handleSafePaste_state _ now clip
    | ctrlShiftV => exact handleSafePaste_state _ now clip
    | shiftInsert => exact handleSafePaste_state _ now clip
    | other => rfl
  · intro s
    exact updateStatePresentation_state _ _

/-- Claim C10: an explicit transition to the Error state reasserts focus and
refreshes the focus timestamp, so a shortcut paste issued immediately
afterwards passes the freshness gate and reaches the clipboard read. -/
theorem error_transition_enables_paste
    (a : APIKeyInput) (now : Nat) (clip clip2 : ClipBehavior)
    (tiU : TextBuffer → TextBuffer × Option Cmd) :
    (update a now clip tiU (.stateChange .error)).model.focused = true ∧
    (update a now clip tiU (.stateChange .error)).model.lastFocusTime = now ∧
    (handleSafePaste (update a now clip tiU (.stateChange .error)).model now clip2).clipCalls = 1 := by
  refine ⟨rfl, rfl, ?_⟩
  have h : now - now ≤ focusFreshMs := by simp
  exact handleSafePaste_calls_one _ now clip2 (Or.inr rfl) rfl h

end Crush.APIKey
